import Mathlib

/-!
Shallow embedding of `CounterAndScanner` from
`src/qt3utils/datagenerators/plescanner.py`.

The controller's mutable fields become a `ScanState` record; each method
becomes a pure function on it.  Positions and voltages are modelled as
exact rationals (`ℚ`).  The external collaborators (wavelength controller
and rate counter) are passed in as parameters:

* `checkOk : ℚ → Bool` models `wavelength_controller.check_allowed_position`,
  which (per the collaborator contract in the spec) raises an out-of-range
  error exactly when the predicate is `false`;
* `goOk : ℚ → Bool` models `go_to_position` / `go_to_voltage`, which raise
  a `ValueError` exactly when the predicate is `false` (the source's own
  `except ValueError` handlers show this is the error type it raises);
* `sample : ℕ → SampleResult` models `rate_counter.sample_counts`, indexed
  by a running call counter threaded through the scan functions;
* `rateFn : SampleResult → ℚ` models `rate_counter.sample_count_rate`
  applied to an already-acquired sample.

Truthiness of `self.wavelength_controller` becomes the `hasController`
flag.  Methods that can raise return `Except PyError _`; every such method
in the source performs all of its raises before any field assignment,
except `set_to_starting_position`, which assigns `current_v` before the
possibly-raising move and therefore returns the mutated state alongside an
optional error.
-/

/-- Python exception kinds that the embedded methods can surface. -/
inductive PyError where
  | valueError
  | attributeError
  | outOfRangeError
deriving DecidableEq

/-- One raw acquisition result from the rate counter: a count value plus
the number of clock samples it was integrated over (opaque to the
controller). -/
structure SampleResult where
  counts : ℤ
  clockSamples : ℤ
deriving DecidableEq

/-- The mutable fields of a `CounterAndScanner` object.  `current_v` is an
`Option` because `__init__` does not assign it: it only exists after
`set_to_starting_position` has run. -/
structure ScanState where
  running : Bool
  current_t : ℤ
  vmin : ℚ
  vmax : ℚ
  tmax : ℤ
  step_size : ℚ
  current_v : Option ℚ
  scanned_raw_counts : List (List SampleResult)
  scanned_count_rate : List (List ℚ)
  hasController : Bool
deriving DecidableEq

/-- Constructor `__init__`: copies the actuator's allowed-position limits into
`vmin`/`vmax`, sets the defaults `tmax = 100`, `_step_size = 0.5`, empty
result lists, `running = False`, `current_t = 0`; `current_v` is left
unassigned. -/
def init (hasCtrl : Bool) (ctrlMin ctrlMax : ℚ) : ScanState :=
  { running := false
    current_t := 0
    vmin := ctrlMin
    vmax := ctrlMax
    tmax := 100
    step_size := 1/2
    current_v := none
    scanned_raw_counts := []
    scanned_count_rate := []
    hasController := hasCtrl }

/-- Actuator call `go_to_position(v=...)`: raises `ValueError` exactly
when the target is rejected. -/
def go_to_position (goOk : ℚ → Bool) (v : ℚ) : Except PyError Unit :=
  if goOk v then .ok () else .error .valueError

/-- Numpy `arange(start, stop, step)` on exact rationals: the values
`start + i * step` for `i = 0, …, ⌈(stop - start) / step⌉ - 1`. -/
def npArange (start stop step : ℚ) : List ℚ :=
  (List.range (⌈(stop - start) / step⌉).toNat).map (fun i : ℕ => start + (i : ℚ) * step)

/-- Method `set_scan_range(vmin, vmax)`: when a controller is present, both bounds
go through `check_allowed_position` (the first rejection raises) before
either field is assigned; without a controller the fields are assigned
unconditionally. -/
def set_scan_range (checkOk : ℚ → Bool) (a b : ℚ) (s : ScanState) :
    Except PyError ScanState :=
  if s.hasController then
    if checkOk a then
      if checkOk b then .ok { s with vmin := a, vmax := b }
      else .error .outOfRangeError
    else .error .outOfRangeError
  else .ok { s with vmin := a, vmax := b }

/-- Method `get_scan_range()`: returns `(vmin, vmax)`. -/
def get_scan_range (s : ScanState) : ℚ × ℚ :=
  (s.vmin, s.vmax)

/-- Method `get_completed_scan_range()`: returns `(vmin, vmax, current_v)`;
reading `current_v` before `set_to_starting_position` raises
`AttributeError`. -/
def get_completed_scan_range (s : ScanState) : Except PyError (ℚ × ℚ × ℚ) :=
  match s.current_v with
  | none => .error .attributeError
  | some v => .ok (s.vmin, s.vmax, v)

/-- Method `set_to_starting_position()`: assigns `current_v = vmin` first, then
(if a controller is present) commands `go_to_voltage(vmin)`, whose
`ValueError` is not caught; the assignment survives the raise, so the
mutated state is returned alongside the optional error. -/
def set_to_starting_position (goOk : ℚ → Bool) (s : ScanState) :
    ScanState × Option PyError :=
  let s' := { s with current_v := some s.vmin }
  if s.hasController then
    if goOk s.vmin then (s', none) else (s', some .valueError)
  else (s', none)

/-- Method `still_scanning()`: returns `False` immediately when `running` is
already false; otherwise returns `True` while `current_t <= tmax` and
flips `running` off (returning `False`) once `current_t` exceeds `tmax`.
The pair is (state after the call, returned boolean). -/
def still_scanning (s : ScanState) : ScanState × Bool :=
  if s.running = false then (s, false)
  else if s.current_t ≤ s.tmax then (s, true)
  else ({ s with running := false }, false)

/-- Method `move_v()`: increments `current_v` by `_step_size` (raising
`AttributeError` if `current_v` is unset), then — only when a controller
is present and the new value is `≤ vmax` — commands `go_to_position`,
catching and logging its `ValueError`.  The boolean records whether the
move was commanded. -/
def move_v (goOk : ℚ → Bool) (s : ScanState) : Except PyError (ScanState × Bool) :=
  match s.current_v with
  | none => .error .attributeError
  | some v =>
    let newV := v + s.step_size
    let s' := { s with current_v := some newV }
    if s.hasController ∧ newV ≤ s.vmax then
      match go_to_position goOk newV with
      | .ok _ => .ok (s', true)
      | .error .valueError => .ok (s', true)
      | .error e => .error e
    else .ok (s', false)

/-- The `for val in np.arange(...)` loop body of `scan_axis`: command the
actuator to `val` (its `ValueError` propagates), then sample counts.
Returns the collected samples, the positions commanded, and the next
sample-call index. -/
def scanLoop (goOk : ℚ → Bool) (sample : ℕ → SampleResult) :
    List ℚ → ℕ → Except PyError (List SampleResult × List ℚ × ℕ)
  | [], idx => .ok ([], [], idx)
  | v :: rest, idx =>
    if goOk v then
      match scanLoop goOk sample rest (idx + 1) with
      | .ok (samples, visited, idx') => .ok (sample idx :: samples, v :: visited, idx')
      | .error e => .error e
    else .error .valueError

/-- Method `scan_axis(axis, min, max, step_size)`: first commands
`go_to_voltage(min)` unconditionally (an absent controller makes this an
`AttributeError`, and a rejected target a propagated `ValueError`), sleeps
for the settle pause, then runs the arange loop.  Returns the raw counts
in traversal order, the loop's commanded positions, and the next
sample-call index. -/
def scan_axis (goOk : ℚ → Bool) (sample : ℕ → SampleResult) (hasCtrl : Bool)
    (lo hi step : ℚ) (idx : ℕ) :
    Except PyError (List SampleResult × List ℚ × ℕ) :=
  if hasCtrl then
    if goOk lo then scanLoop goOk sample (npArange lo hi step) idx
    else .error .valueError
  else .error .attributeError

/-- Method `scan_v()`: runs `scan_axis('v', vmin, vmax, _step_size)`, appends the
raw counts as a new per-sweep entry, appends the per-position count rates
(`sample_count_rate` applied to each stored raw sample), and increments
`current_t`.  All mutations happen after `scan_axis` returns, so an error
leaves the state unchanged. -/
def scan_v (goOk : ℚ → Bool) (sample : ℕ → SampleResult)
    (rateFn : SampleResult → ℚ) (s : ScanState) (idx : ℕ) :
    Except PyError (ScanState × ℕ) :=
  match scan_axis goOk sample s.hasController s.vmin s.vmax s.step_size idx with
  | .ok (raw, _, idx') =>
    .ok ({ s with
            scanned_raw_counts := s.scanned_raw_counts ++ [raw]
            scanned_count_rate := s.scanned_count_rate ++ [raw.map rateFn]
            current_t := s.current_t + 1 }, idx')
  | .error e => .error e

/-- Method `reset()`: empties the two accumulated result sequences. -/
def reset (s : ScanState) : ScanState :=
  { s with scanned_raw_counts := [], scanned_count_rate := [] }

/-- Iterate `scan_v` a given number of times, threading the state and the
sample-call index; the first error aborts the iteration. -/
def runSweeps (goOk : ℚ → Bool) (sample : ℕ → SampleResult)
    (rateFn : SampleResult → ℚ) : ℕ → ScanState × ℕ → Except PyError (ScanState × ℕ)
  | 0, w => .ok w
  | n + 1, (s, idx) =>
    match scan_v goOk sample rateFn s idx with
    | .ok w' => runSweeps goOk sample rateFn n w'
    | .error e => .error e

/-- The Python object state observed after a call that may have raised:
on success the returned state, on a raise the state the method left behind
(for methods whose raises all precede their mutations, the input state). -/
def stateAfter (s : ScanState) : Except PyError ScanState → ScanState
  | .ok s' => s'
  | .error _ => s

lemma npArange_lt_iff (lo hi step : ℚ) (hstep : 0 < step) (i : ℕ) :
    i < (npArange lo hi step).length ↔ lo + (i : ℚ) * step < hi := by
  simp only [npArange, List.length_map, List.length_range]
  rw [Int.lt_toNat, Int.lt_ceil, lt_div_iff₀ hstep]
  constructor
  · intro h; push_cast at h ⊢; linarith
  · intro h; push_cast; linarith

lemma scanLoop_ok (goOk : ℚ → Bool) (sample : ℕ → SampleResult) :
    ∀ (l : List ℚ) (idx : ℕ), (∀ v ∈ l, goOk v = true) →
      scanLoop goOk sample l idx =
        .ok ((List.range l.length).map (fun i => sample (idx + i)), l, idx + l.length)
  | [], idx, _ => by simp [scanLoop]
  | v :: rest, idx, h => by
    have hv : goOk v = true := h v (by simp)
    have ih := scanLoop_ok goOk sample rest (idx + 1) (fun w hw => h w (by simp [hw]))
    have hmap : (List.range (rest.length + 1)).map (fun i => sample (idx + i)) =
        sample idx :: (List.range rest.length).map (fun i => sample (idx + 1 + i)) := by
      rw [List.range_succ_eq_map, List.map_cons, List.map_map]
      refine congrArg₂ _ (by rw [Nat.add_zero]) (List.map_congr_left ?_)
      intro i _
      simp only [Function.comp]
      congr 1
      omega
    have harith : idx + 1 + rest.length = idx + (rest.length + 1) := by omega
    simp only [scanLoop, hv, if_true, ih, hmap, List.length_cons, harith]

lemma scan_axis_ok (goOk : ℚ → Bool) (sample : ℕ → SampleResult)
    (lo hi step : ℚ) (idx : ℕ) (hlo : goOk lo = true)
    (hall : ∀ v ∈ npArange lo hi step, goOk v = true) :
    scan_axis goOk sample true lo hi step idx =
      .ok ((List.range (npArange lo hi step).length).map (fun i => sample (idx + i)),
           npArange lo hi step, idx + (npArange lo hi step).length) := by
  simp only [scan_axis, hlo, if_true]
  exact scanLoop_ok goOk sample _ idx hall

lemma scan_v_ok (goOk : ℚ → Bool) (sample : ℕ → SampleResult)
    (rateFn : SampleResult → ℚ) (s : ScanState) (idx : ℕ)
    (hc : s.hasController = true) (hlo : goOk s.vmin = true)
    (hall : ∀ v ∈ npArange s.vmin s.vmax s.step_size, goOk v = true) :
    scan_v goOk sample rateFn s idx =
      .ok ({ s with
              scanned_raw_counts := s.scanned_raw_counts ++
                [(List.range (npArange s.vmin s.vmax s.step_size).length).map
                  (fun i => sample (idx + i))]
              scanned_count_rate := s.scanned_count_rate ++
                [((List.range (npArange s.vmin s.vmax s.step_size).length).map
                  (fun i => sample (idx + i))).map rateFn]
              current_t := s.current_t + 1 },
            idx + (npArange s.vmin s.vmax s.step_size).length) := by
  rw [scan_v, hc, scan_axis_ok goOk sample s.vmin s.vmax s.step_size idx hlo hall]

lemma runSweeps_ok (goOk : ℚ → Bool) (sample : ℕ → SampleResult)
    (rateFn : SampleResult → ℚ) :
    ∀ (n : ℕ) (s : ScanState) (idx : ℕ),
      s.hasController = true → goOk s.vmin = true →
      (∀ v ∈ npArange s.vmin s.vmax s.step_size, goOk v = true) →
      ∃ s' idx', runSweeps goOk sample rateFn n (s, idx) = .ok (s', idx') ∧
        s'.current_t = s.current_t + n ∧ s'.running = s.running ∧
        s'.tmax = s.tmax ∧ s'.hasController = s.hasController ∧
        s'.vmin = s.vmin ∧ s'.vmax = s.vmax ∧ s'.step_size = s.step_size
  | 0, s, idx, _, _, _ => ⟨s, idx, by simp [runSweeps]⟩
  | n + 1, s, idx, hc, hlo, hall => by
    have hstep := scan_v_ok goOk sample rateFn s idx hc hlo hall
    obtain ⟨s', idx', hrun, ht, hr, htm, hhc, hvmin, hvmax, hss⟩ :=
      runSweeps_ok goOk sample rateFn n
        { s with
            scanned_raw_counts := s.scanned_raw_counts ++
              [(List.range (npArange s.vmin s.vmax s.step_size).length).map
                (fun i => sample (idx + i))]
            scanned_count_rate := s.scanned_count_rate ++
              [((List.range (npArange s.vmin s.vmax s.step_size).length).map
                (fun i => sample (idx + i))).map rateFn]
            current_t := s.current_t + 1 }
        (idx + (npArange s.vmin s.vmax s.step_size).length) hc hlo hall
    refine ⟨s', idx', ?_, ?_, hr, htm, hhc, hvmin, hvmax, hss⟩
    · simp only [runSweeps, hstep]
      exact hrun
    · simp only at ht
      omega

lemma toNat_four : (4 : ℤ).toNat = 4 := rfl

lemma set_to_starting_position_state (goOk : ℚ → Bool) (s : ScanState) :
    (set_to_starting_position goOk s).1 = { s with current_v := some s.vmin } := by
  unfold set_to_starting_position
  by_cases h : s.hasController <;> by_cases hg : goOk s.vmin <;> simp [h, hg]

/-- Claim C1, counterexample: with bounds `[10, 20]` and `current_v = 0`,
`move_v` advances to `0.5`, which is outside `[vmin, vmax]`, yet the move is
still commanded (the returned flag is `true`): the source checks only the
upper bound, so the claim's "no move is commanded for any new position
outside the interval" is false. -/
theorem move_v_commands_below_min_cex :
    move_v (fun _ => true) { init true 10 20 with current_v := some 0 } =
      .ok ({ init true 10 20 with current_v := some (1/2) }, true) ∧
    ¬((10 : ℚ) ≤ 1/2 ∧ (1/2 : ℚ) ≤ 20) := by
  constructor
  · simp [move_v, init, go_to_position]
    norm_num
  · norm_num

/-- Claim C1 (amended): `move_v` advances `current_v` by `step_size`, and it
commands the actuator exactly when a controller is present and the new
position is at most `vmax`; the lower bound `vmin` is not checked, so a new
position below `vmin` is still commanded when it is at most `vmax`. -/
theorem move_v_advances_upper_bound_only (goOk : ℚ → Bool) (s : ScanState) (v : ℚ)
    (h : s.current_v = some v) :
    move_v goOk s =
      .ok ({ s with current_v := some (v + s.step_size) },
           s.hasController && decide (v + s.step_size ≤ s.vmax)) := by
  simp [move_v, h, go_to_position]
  by_cases hc : s.hasController
  · by_cases hle : v + s.step_size ≤ s.vmax
    · simp [hc, hle]
      by_cases hg : goOk (v + s.step_size) <;> simp [hg]
    · simp [hc, hle]
  · simp [hc]

theorem move_v_advances_upper_bound_only_witness :
    ({ init true 10 20 with current_v := some 0 } : ScanState).current_v = some 0 ∧
    move_v (fun _ => true) { init true 10 20 with current_v := some 0 } =
      .ok ({ init true 10 20 with current_v := some ((0 : ℚ) + 1/2) },
           true && decide ((0 : ℚ) + 1/2 ≤ 20)) :=
  ⟨rfl, move_v_advances_upper_bound_only (fun _ => true) _ 0 rfl⟩

/-- Claim C2: with a controller present, if either bound is rejected by the
allowed-position check, `set_scan_range` raises `OutOfRangeError` to the
caller and the stored scan range is unchanged afterwards. -/
theorem set_scan_range_rejected_unchanged (checkOk : ℚ → Bool) (a b : ℚ)
    (s : ScanState) (hc : s.hasController = true)
    (hrej : checkOk a = false ∨ checkOk b = false) :
    set_scan_range checkOk a b s = .error .outOfRangeError ∧
    (stateAfter s (set_scan_range checkOk a b s)).vmin = s.vmin ∧
    (stateAfter s (set_scan_range checkOk a b s)).vmax = s.vmax := by
  have herr : set_scan_range checkOk a b s = .error .outOfRangeError := by
    rcases hrej with h | h
    · simp [set_scan_range, hc, h]
    · by_cases ha : checkOk a <;> simp [set_scan_range, hc, h, ha]
  exact ⟨herr, by rw [herr]; rfl, by rw [herr]; rfl⟩

theorem set_scan_range_rejected_unchanged_witness :
    (init true 0 10).hasController = true ∧
    (set_scan_range (fun _ => false) 3 4 (init true 0 10) = .error .outOfRangeError ∧
     (stateAfter (init true 0 10)
        (set_scan_range (fun _ => false) 3 4 (init true 0 10))).vmin = 0 ∧
     (stateAfter (init true 0 10)
        (set_scan_range (fun _ => false) 3 4 (init true 0 10))).vmax = 10) :=
  ⟨rfl, set_scan_range_rejected_unchanged (fun _ => false) 3 4 (init true 0 10)
    rfl (Or.inl rfl)⟩

/-- Claim C3: with a controller present and both bounds accepted by the
allowed-position check, `set_scan_range` succeeds and `get_scan_range` then
returns exactly the pair that was set. -/
theorem set_scan_range_roundtrip (checkOk : ℚ → Bool) (a b : ℚ) (s : ScanState)
    (hc : s.hasController = true) (ha : checkOk a = true) (hb : checkOk b = true) :
    set_scan_range checkOk a b s = .ok { s with vmin := a, vmax := b } ∧
    get_scan_range { s with vmin := a, vmax := b } = (a, b) := by
  exact ⟨by simp [set_scan_range, hc, ha, hb], rfl⟩

theorem set_scan_range_roundtrip_witness :
    set_scan_range (fun _ => true) 2 7 (init true 0 10) =
      .ok { init true 0 10 with vmin := 2, vmax := 7 } ∧
    get_scan_range { init true 0 10 with vmin := 2, vmax := 7 } = (2, 7) :=
  set_scan_range_roundtrip (fun _ => true) 2 7 (init true 0 10) rfl rfl rfl

/-- Claim C4: when the actuator accepts every commanded position and the step
is positive, `scan_axis` commands exactly the positions of `npArange`
(the arithmetic progression `lo, lo + step, …` of all values below `hi`, with
`hi` excluded: position `i` exists iff `lo + i·step < hi` and equals
`lo + i·step`), samples once per visited position, and returns the
sample-results in traversal order. -/
theorem scan_axis_visits_progression (lo hi step : ℚ) (goOk : ℚ → Bool)
    (sample : ℕ → SampleResult) (idx : ℕ) (hstep : 0 < step)
    (hlo : goOk lo = true) (hall : ∀ v ∈ npArange lo hi step, goOk v = true) :
    scan_axis goOk sample true lo hi step idx =
      .ok ((List.range (npArange lo hi step).length).map (fun i => sample (idx + i)),
           npArange lo hi step, idx + (npArange lo hi step).length) ∧
    (∀ i : ℕ, i < (npArange lo hi step).length ↔ lo + (i : ℚ) * step < hi) ∧
    (∀ (i : ℕ) (h : i < (npArange lo hi step).length),
      (npArange lo hi step).get ⟨i, h⟩ = lo + (i : ℚ) * step) := by
  refine ⟨scan_axis_ok goOk sample lo hi step idx hlo hall,
    fun i => npArange_lt_iff lo hi step hstep i, fun i h => ?_⟩
  simp [npArange, List.get_eq_getElem]

theorem scan_axis_visits_progression_witness :
    npArange 0 2 (1/2) = [0, 1/2, 1, 3/2] ∧
    ((scan_axis (fun _ => true) (fun n => ⟨(n : ℤ), 1⟩) true 0 2 (1/2) 0 =
        .ok ((List.range (npArange 0 2 (1/2)).length).map
               (fun i => ⟨((0 + i : ℕ) : ℤ), 1⟩),
             npArange 0 2 (1/2), 0 + (npArange 0 2 (1/2)).length) ∧
      (∀ i : ℕ, i < (npArange 0 2 (1/2)).length ↔ (0 : ℚ) + (i : ℚ) * (1/2) < 2) ∧
      (∀ (i : ℕ) (h : i < (npArange 0 2 (1/2)).length),
        (npArange 0 2 (1/2)).get ⟨i, h⟩ = (0 : ℚ) + (i : ℚ) * (1/2)))) :=
  ⟨by norm_num [npArange, toNat_four, List.range_succ],
   scan_axis_visits_progression 0 2 (1/2) (fun _ => true) (fun n => ⟨(n : ℤ), 1⟩) 0
     (by norm_num) rfl (fun v _ => rfl)⟩

/-- Claim C5: starting from a started controller with `current_t = 0` and
`tmax = N - 1`, when every commanded position is accepted, running
`scan_v` N times succeeds, after which `still_scanning` returns `false`
and leaves `running` set to `false`. -/
theorem sweep_budget_exhausted (goOk : ℚ → Bool) (sample : ℕ → SampleResult)
    (rateFn : SampleResult → ℚ) (N : ℕ) (s : ScanState) (idx : ℕ)
    (hN : 1 ≤ N) (hrun : s.running = true) (ht0 : s.current_t = 0)
    (htm : s.tmax = (N : ℤ) - 1) (hc : s.hasController = true)
    (hlo : goOk s.vmin = true)
    (hall : ∀ v ∈ npArange s.vmin s.vmax s.step_size, goOk v = true) :
    ∃ s' idx', runSweeps goOk sample rateFn N (s, idx) = .ok (s', idx') ∧
      (still_scanning s').2 = false ∧ (still_scanning s').1.running = false := by
  obtain ⟨s', idx', hr, ht, hrn, htm', _, _, _, _⟩ :=
    runSweeps_ok goOk sample rateFn N s idx hc hlo hall
  have h1 : s'.running = true := by rw [hrn, hrun]
  have h2 : ¬(s'.current_t ≤ s'.tmax) := by
    rw [ht, ht0, htm', htm]
    omega
  refine ⟨s', idx', hr, ?_, ?_⟩ <;> simp [still_scanning, h1, h2]

theorem sweep_budget_exhausted_witness :
    ({ init true 0 2 with running := true, tmax := 0 } : ScanState).running = true ∧
    ({ init true 0 2 with running := true, tmax := 0 } : ScanState).tmax = (1 : ℤ) - 1 ∧
    (∃ s' idx',
      runSweeps (fun _ => true) (fun _ => ⟨0, 1⟩) (fun _ => 0) 1
        ({ init true 0 2 with running := true, tmax := 0 }, 0) = .ok (s', idx') ∧
      (still_scanning s').2 = false ∧ (still_scanning s').1.running = false) :=
  ⟨rfl, by norm_num,
   sweep_budget_exhausted (fun _ => true) (fun _ => ⟨0, 1⟩) (fun _ => 0) 1
     { init true 0 2 with running := true, tmax := 0 } 0
     (by norm_num) rfl rfl (by norm_num) rfl rfl (fun v _ => rfl)⟩

/-- Claim C6: when the commanded move inside `move_v` is rejected by the
actuator (a `ValueError`), the error is not propagated to the caller and
`current_v` still ends up advanced by `step_size`. -/
theorem move_v_swallows_actuator_rejection (goOk : ℚ → Bool) (s : ScanState)
    (v : ℚ) (h : s.current_v = some v) (hc : s.hasController = true)
    (hle : v + s.step_size ≤ s.vmax) (hrej : goOk (v + s.step_size) = false) :
    move_v goOk s = .ok ({ s with current_v := some (v + s.step_size) }, true) := by
  simp [move_v, h, hc, hle, go_to_position, hrej]

theorem move_v_swallows_actuator_rejection_witness :
    ((0 : ℚ) + ({ init true 0 20 with current_v := some 0 } : ScanState).step_size ≤
      ({ init true 0 20 with current_v := some 0 } : ScanState).vmax) ∧
    move_v (fun _ => false) { init true 0 20 with current_v := some 0 } =
      .ok ({ init true 0 20 with current_v := some ((0 : ℚ) + 1/2) }, true) :=
  ⟨by norm_num [init], move_v_swallows_actuator_rejection (fun _ => false) _ 0 rfl rfl
    (by norm_num [init]) rfl⟩

/-- Claim C7: `reset` empties the two accumulated result sequences and
changes no other controller field. -/
theorem reset_clears_only_results (s : ScanState) :
    (reset s).scanned_raw_counts = [] ∧ (reset s).scanned_count_rate = [] ∧
    (reset s).current_t = s.current_t ∧ (reset s).current_v = s.current_v ∧
    (reset s).running = s.running ∧ (reset s).vmin = s.vmin ∧
    (reset s).vmax = s.vmax ∧ (reset s).step_size = s.step_size ∧
    (reset s).tmax = s.tmax ∧ (reset s).hasController = s.hasController := by
  simp [reset]

/-- Claim C8: when `running` is already false, `still_scanning` returns
`false` and leaves the whole state unchanged. -/
theorem still_scanning_when_stopped (s : ScanState) (h : s.running = false) :
    still_scanning s = (s, false) := by
  simp [still_scanning, h]

theorem still_scanning_when_stopped_witness :
    still_scanning (init true 0 10) = (init true 0 10, false) :=
  still_scanning_when_stopped (init true 0 10) rfl

/-- Claim C9: with an absent (falsy) actuator, `set_scan_range` performs no
bounds validation: it never raises and always overwrites the stored range,
even when the check would reject both values and even when `min > max`. -/
theorem set_scan_range_no_actuator (checkOk : ℚ → Bool) (a b : ℚ) (s : ScanState)
    (h : s.hasController = false) :
    set_scan_range checkOk a b s = .ok { s with vmin := a, vmax := b } := by
  simp [set_scan_range, h]

theorem set_scan_range_no_actuator_witness :
    ((1 : ℚ) < 5) ∧
    set_scan_range (fun _ => false) 5 1 (init false 0 10) =
      .ok { init false 0 10 with vmin := 5, vmax := 1 } :=
  ⟨by norm_num, set_scan_range_no_actuator (fun _ => false) 5 1 (init false 0 10) rfl⟩

/-- Claim C10: the constructor leaves `current_v` unassigned, so
`get_completed_scan_range` and `move_v` fail with `AttributeError` on a
fresh controller; `set_to_starting_position` defines `current_v` as `vmin`,
after which `get_completed_scan_range` succeeds. -/
theorem current_v_unset_until_starting_position (hc : Bool) (a b : ℚ)
    (goOk : ℚ → Bool) :
    (init hc a b).current_v = none ∧
    get_completed_scan_range (init hc a b) = .error .attributeError ∧
    move_v goOk (init hc a b) = .error .attributeError ∧
    (set_to_starting_position goOk (init hc a b)).1.current_v = some a ∧
    get_completed_scan_range (set_to_starting_position goOk (init hc a b)).1 =
      .ok (a, b, a) := by
  refine ⟨rfl, rfl, rfl, ?_, ?_⟩ <;>
    simp [set_to_starting_position_state, get_completed_scan_range, init]
